import Mathlib

/-!
Shallow embedding of the moderation API router `src/app/api/internal_v1.py`
of the frcVisionDataset repository, together with theorems checking the
natural-language specification against it.

The database session is modelled as explicit state passing over lists of
rows, rows being keyed by their primary key (`id`).  The ORM query of
`get_image_for_review` (`select … where … order_by asc(created_at) …
limit(1)` followed by `.one()`) is modelled as filter, stable sort by
`created_at`, `take 1`, and an explicit `.one()` that fails on an empty
result set, exactly mirroring SQLAlchemy's behaviour.  Helper functions
living outside `src/` (`get_id_from_team_number`,
`get_team_number_from_id`) are abstract function parameters of the
handlers that use them.
-/

namespace InternalV1

/-- Modelled from the spec: `UserRole` lives in `app.models.models`, which is
not under `src/`.  The spec names moderators and admins above ordinary
users, compared by a hierarchical role comparison. -/
inductive UserRole where
  | user
  | moderator
  | admin
  deriving DecidableEq, Repr

/-- Modelled from the spec: rank of a role in the hierarchy, `USER <
MODERATOR < ADMIN`. -/
def roleRank : UserRole → Nat
  | .user => 0
  | .moderator => 1
  | .admin => 2

/-- Modelled from the spec: `ImageReviewStatus` lives in `app.models.models`,
not under `src/`.  Queued images await review and are then accepted or
rejected; the claims only need it as a decidable enumeration. -/
inductive ImageReviewStatus where
  | pending
  | approved
  | rejected
  deriving DecidableEq, Repr

/-- A row of the `Image` table (`app.models.schemas.Image`).  The primary key
is optional, as in SQLModel, where it is `None` until the row is persisted;
`created_at` is a timestamp, `created_by` a user id, `annotations` an opaque
payload. -/
structure Image where
  id : Option Nat
  batch : Nat
  created_at : Nat
  created_by : Nat
  annotations : String
  review_status : ImageReviewStatus
  deriving DecidableEq, Repr

/-- The response model of the review endpoints (`app.models.models.ReviewMetadata`):
`created_by` holds a team number, not a user id. -/
structure ReviewMetadata where
  id : Nat
  annotations : String
  created_at : Nat
  created_by : Nat
  batch : Nat
  review_status : ImageReviewStatus
  deriving DecidableEq, Repr

/-- A row of the `User` table (`app.models.schemas.User`). -/
structure User where
  id : Nat
  username : String
  role : UserRole
  deriving DecidableEq, Repr

/-- Modelled from the spec: a label category row; the schema is not under
`src/`, and the handlers treat it as an opaque row to insert. -/
structure LabelCategory where
  id : Nat
  name : String
  super_category : Nat
  deriving DecidableEq, Repr

/-- Modelled from the spec: a label super-category row; the schema is not
under `src/`. -/
structure LabelSuperCategory where
  id : Nat
  name : String
  deriving DecidableEq, Repr

/-- Modelled from the spec: `minimum_role` of `app.core.dependencies` (not
under `src/`) authorizes a user whose role is at least the required one in
the hierarchy. -/
def minimum_role (required : UserRole) (u : User) : Bool :=
  roleRank required ≤ roleRank u.role

/-- Modelled from the spec: `require_role` of `app.core.dependencies` (not
under `src/`) authorizes exactly the users holding the required role. -/
def require_role (required : UserRole) (u : User) : Bool :=
  u.role == required

/-- The security dependency attached to an endpoint. -/
inductive Guard where
  | minimumRole (required : UserRole)
  | requireRole (required : UserRole)
  | noGuard
  deriving DecidableEq, Repr

def guardAllows : Guard → User → Bool
  | .minimumRole r, u => minimum_role r u
  | .requireRole r, u => require_role r u
  | .noGuard, _ => true

/-- FastAPI evaluates `Security`/`Depends` guards before the handler body:
the body only runs when the guard admits the user. -/
def runGuarded {α : Type} (g : Guard) (u : User) (body : Unit → α) : Option α :=
  if guardAllows g u then some (body ()) else none

/-- The arguments of a `RateLimiter(requests_limit=…, time_window=…)`
dependency. -/
structure RateLimit where
  requests_limit : Nat
  time_window : Nat
  deriving DecidableEq, Repr

/-- One route of the sub-application, as declared by its decorator in
`src/app/api/internal_v1.py`: HTTP method, path, security guard, and the
rate limiter attached through `dependencies=[…]` (none when the decorator
carries no `dependencies`). -/
structure Endpoint where
  method : String
  path : String
  guard : Guard
  rateLimit : Option RateLimit
  deriving DecidableEq, Repr

/-- The routes declared in `src/app/api/internal_v1.py`, in source order. -/
def endpoints : List Endpoint :=
  [ ⟨"GET", "/review-image", .minimumRole .moderator, some ⟨5, 5⟩⟩,
    ⟨"PUT", "/review-image", .minimumRole .moderator, some ⟨5, 5⟩⟩,
    ⟨"GET", "/image/{image_id}", .minimumRole .moderator, some ⟨5, 5⟩⟩,
    ⟨"POST", "/token", .noGuard, some ⟨10, 5⟩⟩,
    ⟨"PUT", "/change-user-role", .requireRole .admin, some ⟨5, 5⟩⟩,
    ⟨"PUT", "/categories/super/create", .minimumRole .moderator, none⟩,
    ⟨"PUT", "/categories/create", .minimumRole .moderator, none⟩ ]

/-- Errors a handler can raise: the explicit `LookupError` and
`HTTPException` of the source, Python's `assert` failure, and the
exceptions `session.exec(...).one()` raises itself. -/
inductive ExecError where
  | noResultFound
  | multipleResultsFound
  deriving DecidableEq, Repr

inductive ApiError where
  | lookupError
  | execError (e : ExecError)
  | assertionError
  | httpException (status : Nat) (detail : String)
  deriving DecidableEq, Repr

instance {ε α : Type} [DecidableEq ε] [DecidableEq α] : DecidableEq (Except ε α) :=
  fun x y =>
    match x, y with
    | .ok a, .ok b =>
      if h : a = b then isTrue (by rw [h]) else isFalse (fun hc => h (Except.ok.inj hc))
    | .error a, .error b =>
      if h : a = b then isTrue (by rw [h]) else isFalse (fun hc => h (Except.error.inj hc))
    | .ok _, .error _ => isFalse (fun hc => Except.noConfusion hc)
    | .error _, .ok _ => isFalse (fun hc => Except.noConfusion hc)

/-- The `ORDER BY asc(created_at)` comparison of the review query. -/
def createdAtLe (a b : Image) : Prop :=
  a.created_at ≤ b.created_at

instance : DecidableRel createdAtLe := fun a b => Nat.decLe a.created_at b.created_at

instance : IsTotal Image createdAtLe := ⟨fun a b => Nat.le_total a.created_at b.created_at⟩

instance : IsTrans Image createdAtLe := ⟨fun _ _ _ => Nat.le_trans⟩

/-- The statement of `get_image_for_review`:
`select(Image).where(Image.review_status == target_status)
.order_by(asc(Image.created_at)).limit(1)`, executed over the image table:
filter, sort ascending by `created_at`, keep at most one row. -/
def reviewQuery (db : List Image) (target_status : ImageReviewStatus) : List Image :=
  (List.insertionSort createdAtLe
    (db.filter (fun img => img.review_status == target_status))).take 1

/-- SQLAlchemy's `.one()`: the single row of the result set, raising
`NoResultFound` on an empty result and `MultipleResultsFound` on more than
one row. -/
def execOne (rows : List Image) : Except ExecError Image :=
  match rows with
  | [] => .error .noResultFound
  | [img] => .ok img
  | _ :: _ :: _ => .error .multipleResultsFound

/-- Python truthiness of a retrieved `Image` row: SQLModel/pydantic model
instances define no custom bool conversion, so an actual instance is always
truthy. -/
def imageTruthy (_ : Image) : Bool :=
  true

/-- Handler of `GET /review-image` (`get_image_for_review`).  The helper
`get_team_number_from_id` lives outside `src/` and is passed in abstractly
as `idToTeam`. -/
def get_image_for_review (idToTeam : Nat → Nat) (db : List Image)
    (target_status : ImageReviewStatus) : Except ApiError ReviewMetadata :=
  match execOne (reviewQuery db target_status) with
  | .error e => .error (.execError e)
  | .ok image =>
    if imageTruthy image = false then
      .error .lookupError
    else
      match image.id with
      | none => .error .assertionError
      | some iid =>
        .ok { id := iid
              annotations := image.annotations
              created_at := image.created_at
              created_by := idToTeam image.created_by
              batch := image.batch
              review_status := image.review_status }

/-- `session.get(Image, new_data.id)`: primary-key lookup in the image
table. -/
def sessionGetImage (db : List Image) (iid : Nat) : Option Image :=
  db.find? (fun img => img.id == some iid)

/-- Outcome of a mutating image handler: the HTTP response, the image table
after the call, and whether `session.commit()` ran. -/
structure ImagePutResult where
  response : Except ApiError Unit
  db : List Image
  committed : Bool
  deriving DecidableEq, Repr

/-- The field assignments of `update_image_review_status`: the fetched row
with `batch`, `created_at`, `created_by` (converted from the team number),
`annotations` and `review_status` overwritten by `new_data`'s values. -/
def applyReview (teamToId : Nat → Nat) (new_data : ReviewMetadata)
    (img : Image) : Image :=
  { img with
    batch := new_data.batch
    created_at := new_data.created_at
    created_by := teamToId new_data.created_by
    annotations := new_data.annotations
    review_status := new_data.review_status }

/-- Handler of `PUT /review-image` (`update_image_review_status`).  The
helper `get_id_from_team_number` lives outside `src/` and is passed in
abstractly as `teamToId`.  `session.delete` removes the row with the
fetched object's primary key; mutating the fetched object and committing
rewrites the row with that primary key. -/
def update_image_review_status (teamToId : Nat → Nat) (db : List Image)
    (new_data : ReviewMetadata) (remove_image : Bool) : ImagePutResult :=
  match sessionGetImage db new_data.id with
  | none =>
    { response := .error (.httpException 404 "Image not found")
      db := db
      committed := false }
  | some image =>
    if remove_image then
      { response := .ok ()
        db := db.filter (fun img => !(img.id == image.id))
        committed := true }
    else
      { response := .ok ()
        db := db.map (fun img =>
          if img.id == image.id then applyReview teamToId new_data image else img)
        committed := true }

/-- Modelled from the spec: `get_user_from_username` of `app.core.helpers`
is not under `src/`; it resolves a username to that user's row. -/
def get_user_from_username (username : String) (users : List User) : Option User :=
  users.find? (fun u => u.username == username)

/-- Outcome of the role-change handler: response, user table after the
call, and whether `session.commit()` ran. -/
structure UserPutResult where
  response : Except ApiError Unit
  users : List User
  committed : Bool
  deriving DecidableEq, Repr

/-- Handler of `PUT /change-user-role` (`change_user_role`): look the user
up by username, set `user.role = new_role`, add and commit. -/
def change_user_role (users : List User) (username : String)
    (new_role : UserRole) : UserPutResult :=
  match get_user_from_username username users with
  | none =>
    { response := .error (.httpException 404 "User not found")
      users := users
      committed := false }
  | some user =>
    let user' : User := { user with role := new_role }
    { response := .ok ()
      users := users.map (fun u => if u.id == user.id then user' else u)
      committed := true }

/-- Outcome of a category-creation handler. -/
structure CategoryPutResult where
  response : Except ApiError Unit
  cats : List LabelCategory
  committed : Bool
  deriving DecidableEq, Repr

structure SuperCategoryPutResult where
  response : Except ApiError Unit
  cats : List LabelSuperCategory
  committed : Bool
  deriving DecidableEq, Repr

/-- Handler of `PUT /categories/create` (`create_label_category`):
`session.add(category)` inserts the new row, then `session.commit()`. -/
def create_label_category (cats : List LabelCategory)
    (category : LabelCategory) : CategoryPutResult :=
  { response := .ok ()
    cats := cats ++ [category]
    committed := true }

/-- Handler of `PUT /categories/super/create`
(`create_label_super_category`). -/
def create_label_super_category (cats : List LabelSuperCategory)
    (category : LabelSuperCategory) : SuperCategoryPutResult :=
  { response := .ok ()
    cats := cats ++ [category]
    committed := true }

/-- Modelled from the spec: the state of one `RateLimiter` window counter
(`app.core.dependencies.RateLimiter` is not under `src/`; the spec calls it
a window counter with standard semantics): the start of the current window
and the number of requests admitted in it. -/
structure RateLimiterState where
  window_start : Nat
  count : Nat
  deriving DecidableEq, Repr

/-- Modelled from the spec: one request hitting the window counter at time
`now`.  A request past the window opens a fresh window; inside the window a
request is admitted only while the counter is below `requests_limit`. -/
def rateLimiterStep (limit window : Nat) (s : RateLimiterState) (now : Nat) :
    RateLimiterState × Bool :=
  if s.window_start + window ≤ now then
    (⟨now, 1⟩, true)
  else if s.count < limit then
    (⟨s.window_start, s.count + 1⟩, true)
  else
    (s, false)

/-- The limiter run over a sequence of request times; `true` marks a served
request. -/
def runLimiter (limit window : Nat) (s : RateLimiterState) : List Nat → List Bool
  | [] => []
  | t :: ts =>
    let step := rateLimiterStep limit window s t
    step.2 :: runLimiter limit window step.1 ts

def countAllowed (bs : List Bool) : Nat :=
  bs.count true

/-! Helper lemmas about the review query. -/

lemma reviewQuery_ok_spec (db : List Image) (t : ImageReviewStatus)
    (hne : ∃ img ∈ db, img.review_status = t) :
    ∃ img, execOne (reviewQuery db t) = .ok img ∧ img ∈ db ∧ img.review_status = t ∧
      ∀ other ∈ db, other.review_status = t → img.created_at ≤ other.created_at := by
  classical
  set l := db.filter (fun img => img.review_status == t) with hl
  have hmem_l : ∀ img : Image, img ∈ l ↔ img ∈ db ∧ img.review_status = t := by
    intro img
    rw [hl]
    simp [List.mem_filter]
  have hlne : l ≠ [] := by
    obtain ⟨img, hmem, hst⟩ := hne
    intro hnil
    have : img ∈ l := (hmem_l img).2 ⟨hmem, hst⟩
    simp [hnil] at this
  have hperm := List.perm_insertionSort createdAtLe l
  have hsorted := List.sorted_insertionSort createdAtLe l
  have hslen : (List.insertionSort createdAtLe l).length = l.length := hperm.length_eq
  cases hs : List.insertionSort createdAtLe l with
  | nil =>
    exfalso
    apply hlne
    rw [hs] at hslen
    exact List.length_eq_zero.1 hslen.symm
  | cons a rest =>
    have ha_mem : a ∈ l := hperm.mem_iff.1 (by rw [hs]; exact List.mem_cons_self a rest)
    have ha := (hmem_l a).1 ha_mem
    refine ⟨a, ?_, ha.1, ha.2, ?_⟩
    · show execOne (reviewQuery db t) = .ok a
      rw [reviewQuery, ← hl, hs]
      rfl
    · intro other hodb hot
      have hol : other ∈ l := (hmem_l other).2 ⟨hodb, hot⟩
      have hos : other ∈ a :: rest := by
        rw [← hs]
        exact hperm.symm.mem_iff.1 hol
      rcases List.mem_cons.1 hos with heq | htail
      · rw [heq]
      · have hsorted' : List.Sorted createdAtLe (a :: rest) := hs ▸ hsorted
        exact List.rel_of_sorted_cons hsorted' other htail

lemma reviewQuery_empty_spec (db : List Image) (t : ImageReviewStatus)
    (hno : ∀ img ∈ db, img.review_status ≠ t) :
    execOne (reviewQuery db t) = .error .noResultFound := by
  have hfil : db.filter (fun img => img.review_status == t) = [] :=
    List.filter_eq_nil_iff.2 (fun img hmem => by simp [hno img hmem])
  rw [reviewQuery, hfil]
  rfl

lemma get_image_for_review_of_execOne_ok (idToTeam : Nat → Nat) (db : List Image)
    (t : ImageReviewStatus) (img : Image)
    (h : execOne (reviewQuery db t) = .ok img) :
    get_image_for_review idToTeam db t =
      match img.id with
      | none => .error .assertionError
      | some iid =>
        .ok { id := iid
              annotations := img.annotations
              created_at := img.created_at
              created_by := idToTeam img.created_by
              batch := img.batch
              review_status := img.review_status } := by
  rw [get_image_for_review, h]
  simp [imageTruthy]

lemma get_image_for_review_of_execOne_error (idToTeam : Nat → Nat) (db : List Image)
    (t : ImageReviewStatus) (e : ExecError)
    (h : execOne (reviewQuery db t) = .error e) :
    get_image_for_review idToTeam db t = .error (.execError e) := by
  rw [get_image_for_review, h]

/-- C1: whenever the image table holds at least one image whose
`review_status` equals `target_status` (and rows carry their database id),
`GET /review-image` returns the `ReviewMetadata` of exactly one image, one
whose `review_status` equals `target_status` and whose `created_at` is
minimal among all such images — the oldest matching row, selected by the
single sorted, limit-1 query `reviewQuery`. -/
theorem C1_returns_oldest_matching_image (idToTeam : Nat → Nat) (db : List Image)
    (target_status : ImageReviewStatus)
    (hne : ∃ img ∈ db, img.review_status = target_status)
    (hid : ∀ img ∈ db, img.id.isSome) :
    ∃ img ∈ db, img.review_status = target_status ∧
      (∀ other ∈ db, other.review_status = target_status →
        img.created_at ≤ other.created_at) ∧
      ∃ iid, img.id = some iid ∧
        get_image_for_review idToTeam db target_status =
          .ok { id := iid
                annotations := img.annotations
                created_at := img.created_at
                created_by := idToTeam img.created_by
                batch := img.batch
                review_status := img.review_status } := by
  obtain ⟨img, hexec, hmem, hst, hmin⟩ := reviewQuery_ok_spec db target_status hne
  obtain ⟨iid, hiid⟩ := Option.isSome_iff_exists.1 (hid img hmem)
  refine ⟨img, hmem, hst, hmin, iid, hiid, ?_⟩
  rw [get_image_for_review_of_execOne_ok idToTeam db target_status img hexec, hiid]

def dbC1 : List Image :=
  [ ⟨some 1, 0, 10, 7, "a", .pending⟩,
    ⟨some 2, 0, 5, 8, "b", .pending⟩,
    ⟨some 3, 0, 2, 9, "c", .approved⟩ ]

theorem C1_returns_oldest_matching_image_witness :
    ∃ img ∈ dbC1, img.review_status = .pending ∧
      (∀ other ∈ dbC1, other.review_status = .pending →
        img.created_at ≤ other.created_at) ∧
      ∃ iid, img.id = some iid ∧
        get_image_for_review (fun n => n) dbC1 .pending =
          .ok { id := iid
                annotations := img.annotations
                created_at := img.created_at
                created_by := (fun n => n) img.created_by
                batch := img.batch
                review_status := img.review_status } :=
  C1_returns_oldest_matching_image (fun n => n) dbC1 .pending (by decide) (by decide)

/-- C9: the `if not image: raise LookupError()` branch of
`get_image_for_review` is unreachable — the handler never produces
`LookupError`, because `.one()` either yields an actual (always truthy) row
or raises itself; and on an empty queue the handler does not return
normally but fails with `NoResultFound`. -/
theorem C9_lookupError_unreachable (idToTeam : Nat → Nat) (db : List Image)
    (target_status : ImageReviewStatus) :
    get_image_for_review idToTeam db target_status ≠ .error .lookupError ∧
    ((∀ img ∈ db, img.review_status ≠ target_status) →
      get_image_for_review idToTeam db target_status =
        .error (.execError .noResultFound)) := by
  constructor
  · cases hexec : execOne (reviewQuery db target_status) with
    | error e =>
      rw [get_image_for_review_of_execOne_error idToTeam db target_status e hexec]
      intro hcontra
      cases hcontra
    | ok img =>
      rw [get_image_for_review_of_execOne_ok idToTeam db target_status img hexec]
      cases img.id with
      | none => intro hcontra; cases hcontra
      | some iid => intro hcontra; cases hcontra
  · intro hno
    rw [get_image_for_review_of_execOne_error idToTeam db target_status .noResultFound
      (reviewQuery_empty_spec db target_status hno)]

def dbC9 : List Image :=
  [⟨some 1, 0, 10, 7, "a", .rejected⟩]

theorem C9_lookupError_unreachable_witness :
    get_image_for_review (fun n => n) dbC9 .pending ≠ .error .lookupError ∧
    get_image_for_review (fun n => n) dbC9 .pending =
      .error (.execError .noResultFound) :=
  ⟨(C9_lookupError_unreachable (fun n => n) dbC9 .pending).1,
    (C9_lookupError_unreachable (fun n => n) dbC9 .pending).2 (by decide)⟩

def imgTieA : Image := ⟨some 1, 0, 5, 3, "a", .pending⟩

def imgTieB : Image := ⟨some 2, 0, 5, 4, "b", .pending⟩

/-- C10 counterexample: two image tables holding the same rows (they are
permutations of one another) in which two distinct pending images share the
minimal `created_at`.  The query's sort has no tiebreaker beyond
`created_at`, so the row returned follows the order in which the database
presents the rows, and the two presentations of the same state yield the
metadata of two different images.  This refutes determinism of the
"oldest row" selection under ties. -/
theorem C10_counterexample :
    List.Perm [imgTieA, imgTieB] [imgTieB, imgTieA] ∧
    get_image_for_review (fun n => n) [imgTieA, imgTieB] .pending =
      .ok ⟨1, "a", 5, 3, 0, .pending⟩ ∧
    get_image_for_review (fun n => n) [imgTieB, imgTieA] .pending =
      .ok ⟨2, "b", 5, 4, 0, .pending⟩ ∧
    (⟨1, "a", 5, 3, 0, .pending⟩ : ReviewMetadata) ≠ ⟨2, "b", 5, 4, 0, .pending⟩ :=
  ⟨List.Perm.swap imgTieB imgTieA [], by decide, by decide, by decide⟩

/-- C10 amended: `GET /review-image` is a pure function of the presented
row sequence, and whenever no two distinct images of the requested status
share a `created_at` (in particular the minimal `created_at` is attained by
a unique image), any two presentations of the same database state — any
two row sequences that are permutations of one another — yield the same
result.  Under ties the selection depends on the row order (see the
counterexample). -/
theorem C10_amended_deterministic_without_ties (idToTeam : Nat → Nat)
    (db db' : List Image) (target_status : ImageReviewStatus)
    (hperm : db.Perm db')
    (hties : ∀ a ∈ db, ∀ b ∈ db, a.review_status = target_status →
      b.review_status = target_status → a.created_at = b.created_at → a = b) :
    get_image_for_review idToTeam db target_status =
      get_image_for_review idToTeam db' target_status := by
  by_cases hex : ∃ img ∈ db, img.review_status = target_status
  · obtain ⟨img1, hexec1, hmem1, hst1, hmin1⟩ :=
      reviewQuery_ok_spec db target_status hex
    have hex' : ∃ img ∈ db', img.review_status = target_status := by
      obtain ⟨img, hmem, hst⟩ := hex
      exact ⟨img, hperm.mem_iff.1 hmem, hst⟩
    obtain ⟨img2, hexec2, hmem2, hst2, hmin2⟩ :=
      reviewQuery_ok_spec db' target_status hex'
    have hmem2' : img2 ∈ db := hperm.mem_iff.2 hmem2
    have hle12 : img1.created_at ≤ img2.created_at := hmin1 img2 hmem2' hst2
    have hle21 : img2.created_at ≤ img1.created_at :=
      hmin2 img1 (hperm.mem_iff.1 hmem1) hst1
    have heq : img1 = img2 :=
      hties img1 hmem1 img2 hmem2' hst1 hst2 (Nat.le_antisymm hle12 hle21)
    rw [get_image_for_review_of_execOne_ok idToTeam db target_status img1 hexec1,
      get_image_for_review_of_execOne_ok idToTeam db' target_status img2 hexec2, heq]
  · have hno : ∀ img ∈ db, img.review_status ≠ target_status := by
      intro img hmem hst
      exact hex ⟨img, hmem, hst⟩
    have hno' : ∀ img ∈ db', img.review_status ≠ target_status := by
      intro img hmem hst
      exact hex ⟨img, hperm.mem_iff.2 hmem, hst⟩
    rw [get_image_for_review_of_execOne_error idToTeam db target_status .noResultFound
      (reviewQuery_empty_spec db target_status hno),
      get_image_for_review_of_execOne_error idToTeam db' target_status .noResultFound
      (reviewQuery_empty_spec db' target_status hno')]

def imgOldest : Image := ⟨some 1, 0, 2, 3, "a", .pending⟩

def imgNewer : Image := ⟨some 2, 0, 7, 4, "b", .pending⟩

theorem C10_amended_deterministic_without_ties_witness :
    get_image_for_review (fun n => n) [imgOldest, imgNewer] .pending =
      get_image_for_review (fun n => n) [imgNewer, imgOldest] .pending :=
  C10_amended_deterministic_without_ties (fun n => n) [imgOldest, imgNewer]
    [imgNewer, imgOldest] .pending (List.Perm.swap imgNewer imgOldest [])
    (by decide)

/-! Helper lemmas about the primary-key lookup and the mutating image
handler. -/

lemma sessionGetImage_eq_none_iff (db : List Image) (iid : Nat) :
    sessionGetImage db iid = none ↔ ∀ img ∈ db, img.id ≠ some iid := by
  rw [sessionGetImage, List.find?_eq_none]
  constructor
  · intro h img hmem heq
    exact absurd (by simpa using heq) (by simpa using h img hmem)
  · intro h img hmem
    simpa using h img hmem

lemma sessionGetImage_eq_some (db : List Image) (iid : Nat) (img0 : Image)
    (h : sessionGetImage db iid = some img0) :
    img0 ∈ db ∧ img0.id = some iid := by
  refine ⟨List.mem_of_find?_eq_some h, ?_⟩
  have := List.find?_some h
  simpa using this

lemma update_eq_of_found_false (teamToId : Nat → Nat) (db : List Image)
    (new_data : ReviewMetadata) (img0 : Image)
    (hfound : sessionGetImage db new_data.id = some img0) :
    update_image_review_status teamToId db new_data false =
      { response := .ok ()
        db := db.map (fun img =>
          if img.id == img0.id then applyReview teamToId new_data img0 else img)
        committed := true } := by
  rw [update_image_review_status, hfound]
  rfl

lemma update_eq_of_found_true (teamToId : Nat → Nat) (db : List Image)
    (new_data : ReviewMetadata) (img0 : Image)
    (hfound : sessionGetImage db new_data.id = some img0) :
    update_image_review_status teamToId db new_data true =
      { response := .ok ()
        db := db.filter (fun img => !(img.id == img0.id))
        committed := true } := by
  rw [update_image_review_status, hfound]
  rfl

lemma update_eq_of_missing (teamToId : Nat → Nat) (db : List Image)
    (new_data : ReviewMetadata) (remove_image : Bool)
    (hmiss : sessionGetImage db new_data.id = none) :
    update_image_review_status teamToId db new_data remove_image =
      { response := .error (.httpException 404 "Image not found")
        db := db
        committed := false } := by
  rw [update_image_review_status, hmiss]

/-- C2: a `PUT /review-image` call with `remove_image = false` on an
existing image overwrites exactly that image's `batch`, `created_at`,
`created_by` (the given team number converted to a user id), `annotations`
and `review_status` with `new_data`'s values and commits: the updated row
is in the resulting table, every row with a different id is untouched, and
no row appears or disappears. -/
theorem C2_update_applies_new_data (teamToId : Nat → Nat) (db : List Image)
    (new_data : ReviewMetadata) (img0 : Image)
    (hfound : sessionGetImage db new_data.id = some img0) :
    (update_image_review_status teamToId db new_data false).response = .ok () ∧
    (update_image_review_status teamToId db new_data false).committed = true ∧
    (applyReview teamToId new_data img0).batch = new_data.batch ∧
    (applyReview teamToId new_data img0).created_at = new_data.created_at ∧
    (applyReview teamToId new_data img0).created_by = teamToId new_data.created_by ∧
    (applyReview teamToId new_data img0).annotations = new_data.annotations ∧
    (applyReview teamToId new_data img0).review_status = new_data.review_status ∧
    (applyReview teamToId new_data img0).id = img0.id ∧
    applyReview teamToId new_data img0 ∈
      (update_image_review_status teamToId db new_data false).db ∧
    (∀ img ∈ db, img.id ≠ img0.id →
      img ∈ (update_image_review_status teamToId db new_data false).db) ∧
    (∀ img ∈ (update_image_review_status teamToId db new_data false).db,
      img = applyReview teamToId new_data img0 ∨ (img ∈ db ∧ img.id ≠ img0.id)) ∧
    (update_image_review_status teamToId db new_data false).db.length = db.length := by
  rw [update_eq_of_found_false teamToId db new_data img0 hfound]
  obtain ⟨hmem0, _⟩ := sessionGetImage_eq_some db new_data.id img0 hfound
  refine ⟨rfl, rfl, rfl, rfl, rfl, rfl, rfl, rfl, ?_, ?_, ?_, by simp⟩
  · exact List.mem_map.2 ⟨img0, hmem0, by simp⟩
  · intro img hmem hne
    refine List.mem_map.2 ⟨img, hmem, ?_⟩
    simp [hne]
  · intro img hmem
    obtain ⟨v, hv, hveq⟩ := List.mem_map.1 hmem
    by_cases hid : v.id = img0.id
    · left
      rw [← hveq]
      simp [hid]
    · right
      rw [← hveq]
      simp [hid]
      exact hv

def newDataC2 : ReviewMetadata := ⟨2, "fixed", 11, 254, 9, .approved⟩

def imgC2 : Image := ⟨some 2, 0, 5, 8, "b", .pending⟩

theorem C2_update_applies_new_data_witness :
    (update_image_review_status (fun n => n) dbC1 newDataC2 false).response =
      .ok () ∧
    (update_image_review_status (fun n => n) dbC1 newDataC2 false).committed =
      true ∧
    (applyReview (fun n => n) newDataC2 imgC2).batch = newDataC2.batch ∧
    (applyReview (fun n => n) newDataC2 imgC2).created_at =
      newDataC2.created_at ∧
    (applyReview (fun n => n) newDataC2 imgC2).created_by =
      (fun n => n) newDataC2.created_by ∧
    (applyReview (fun n => n) newDataC2 imgC2).annotations =
      newDataC2.annotations ∧
    (applyReview (fun n => n) newDataC2 imgC2).review_status =
      newDataC2.review_status ∧
    (applyReview (fun n => n) newDataC2 imgC2).id = imgC2.id ∧
    applyReview (fun n => n) newDataC2 imgC2 ∈
      (update_image_review_status (fun n => n) dbC1 newDataC2 false).db ∧
    (∀ img ∈ dbC1, img.id ≠ imgC2.id →
      img ∈ (update_image_review_status (fun n => n) dbC1 newDataC2 false).db) ∧
    (∀ img ∈ (update_image_review_status (fun n => n) dbC1 newDataC2 false).db,
      img = applyReview (fun n => n) newDataC2 imgC2 ∨
        (img ∈ dbC1 ∧ img.id ≠ imgC2.id)) ∧
    (update_image_review_status (fun n => n) dbC1 newDataC2 false).db.length =
      dbC1.length :=
  C2_update_applies_new_data (fun n => n) dbC1 newDataC2 imgC2 (by decide)

/-- C7: `PUT /review-image` answers HTTP 404 "Image not found" exactly when
no image with id `new_data.id` exists, and in that case the image table is
unchanged and no commit runs. -/
theorem C7_404_iff_image_missing (teamToId : Nat → Nat) (db : List Image)
    (new_data : ReviewMetadata) (remove_image : Bool) :
    ((update_image_review_status teamToId db new_data remove_image).response =
        .error (.httpException 404 "Image not found") ↔
      ∀ img ∈ db, img.id ≠ some new_data.id) ∧
    ((∀ img ∈ db, img.id ≠ some new_data.id) →
      (update_image_review_status teamToId db new_data remove_image).db = db ∧
      (update_image_review_status teamToId db new_data remove_image).committed =
        false) := by
  cases hlook : sessionGetImage db new_data.id with
  | none =>
    have hall := (sessionGetImage_eq_none_iff db new_data.id).1 hlook
    rw [update_eq_of_missing teamToId db new_data remove_image hlook]
    exact ⟨⟨fun _ => hall, fun _ => rfl⟩, fun _ => ⟨rfl, rfl⟩⟩
  | some img0 =>
    obtain ⟨hmem0, hid0⟩ := sessionGetImage_eq_some db new_data.id img0 hlook
    have hnall : ¬ ∀ img ∈ db, img.id ≠ some new_data.id :=
      fun hall => hall img0 hmem0 hid0
    refine ⟨⟨?_, fun hall => absurd hall hnall⟩, fun hall => absurd hall hnall⟩
    intro hresp
    exfalso
    cases remove_image with
    | true =>
      rw [update_eq_of_found_true teamToId db new_data img0 hlook] at hresp
      cases hresp
    | false =>
      rw [update_eq_of_found_false teamToId db new_data img0 hlook] at hresp
      cases hresp

def newDataC7 : ReviewMetadata := ⟨42, "x", 1, 2, 3, .approved⟩

theorem C7_404_iff_image_missing_witness :
    ((update_image_review_status (fun n => n) dbC1 newDataC7 false).response =
        .error (.httpException 404 "Image not found") ↔
      ∀ img ∈ dbC1, img.id ≠ some newDataC7.id) ∧
    (update_image_review_status (fun n => n) dbC1 newDataC7 false).db = dbC1 ∧
    (update_image_review_status (fun n => n) dbC1 newDataC7 false).committed =
      false :=
  ⟨(C7_404_iff_image_missing (fun n => n) dbC1 newDataC7 false).1,
    (C7_404_iff_image_missing (fun n => n) dbC1 newDataC7 false).2 (by decide)⟩

lemma length_filter_ne_id (db : List Image) (img0 : Image) (hmem : img0 ∈ db)
    (hnodup : (db.map Image.id).Nodup) :
    (db.filter (fun img => !(img.id == img0.id))).length + 1 = db.length := by
  induction db with
  | nil => cases hmem
  | cons a l ih =>
    rw [List.map_cons, List.nodup_cons] at hnodup
    obtain ⟨hanotin, hnodl⟩ := hnodup
    rcases List.mem_cons.1 hmem with heq | hmeml
    · subst heq
      have hkeep : l.filter (fun img => !(img.id == img0.id)) = l := by
        apply List.filter_eq_self.2
        intro img hmem'
        have hne : img.id ≠ img0.id := by
          intro hcontra
          exact hanotin (hcontra ▸ List.mem_map_of_mem Image.id hmem')
        simp [hne]
      simp [List.filter_cons, hkeep]
    · have hane : a.id ≠ img0.id := by
        intro hcontra
        exact hanotin (hcontra ▸ List.mem_map_of_mem Image.id hmeml)
      have := ih hmeml hnodl
      simp only [List.filter_cons, List.length_cons]
      rw [if_pos (by simp [hane])]
      simp only [List.length_cons]
      omega

/-- C8: a `PUT /review-image` call with `remove_image = true` on an
existing image (in a table whose primary keys are distinct) deletes exactly
that image and commits: the row is gone, every surviving row is an
unmodified row of the old table with a different id — none of `new_data`'s
field values is applied to anything — and exactly one row disappears.
Conversely, with `remove_image = false` the table keeps its length: no row
is ever deleted. -/
theorem C8_remove_deletes_row (teamToId : Nat → Nat) (db : List Image)
    (new_data : ReviewMetadata) (img0 : Image)
    (hfound : sessionGetImage db new_data.id = some img0)
    (hnodup : (db.map Image.id).Nodup) :
    (update_image_review_status teamToId db new_data true).response = .ok () ∧
    (update_image_review_status teamToId db new_data true).committed = true ∧
    img0 ∉ (update_image_review_status teamToId db new_data true).db ∧
    (∀ img ∈ db, img.id ≠ img0.id →
      img ∈ (update_image_review_status teamToId db new_data true).db) ∧
    (∀ img ∈ (update_image_review_status teamToId db new_data true).db,
      img ∈ db ∧ img.id ≠ img0.id) ∧
    (update_image_review_status teamToId db new_data true).db.length + 1 =
      db.length ∧
    (update_image_review_status teamToId db new_data false).db.length =
      db.length := by
  obtain ⟨hmem0, _⟩ := sessionGetImage_eq_some db new_data.id img0 hfound
  rw [update_eq_of_found_true teamToId db new_data img0 hfound,
    update_eq_of_found_false teamToId db new_data img0 hfound]
  refine ⟨rfl, rfl, ?_, ?_, ?_, ?_, by simp⟩
  · intro hcontra
    have := (List.mem_filter.1 hcontra).2
    simp at this
  · intro img hmem hne
    exact List.mem_filter.2 ⟨hmem, by simp [hne]⟩
  · intro img hmem
    obtain ⟨hmemdb, hcond⟩ := List.mem_filter.1 hmem
    refine ⟨hmemdb, ?_⟩
    simpa using hcond
  · exact length_filter_ne_id db img0 hmem0 hnodup

def newDataC8 : ReviewMetadata := ⟨2, "x", 1, 2, 3, .approved⟩

def imgC8 : Image := ⟨some 2, 0, 5, 8, "b", .pending⟩

theorem C8_remove_deletes_row_witness :
    (update_image_review_status (fun n => n) dbC1 newDataC8 true).response =
      .ok () ∧
    (update_image_review_status (fun n => n) dbC1 newDataC8 true).committed =
      true ∧
    imgC8 ∉ (update_image_review_status (fun n => n) dbC1 newDataC8 true).db ∧
    (∀ img ∈ dbC1, img.id ≠ imgC8.id →
      img ∈ (update_image_review_status (fun n => n) dbC1 newDataC8 true).db) ∧
    (∀ img ∈ (update_image_review_status (fun n => n) dbC1 newDataC8 true).db,
      img ∈ dbC1 ∧ img.id ≠ imgC8.id) ∧
    (update_image_review_status (fun n => n) dbC1 newDataC8 true).db.length + 1 =
      dbC1.length ∧
    (update_image_review_status (fun n => n) dbC1 newDataC8 false).db.length =
      dbC1.length :=
  C8_remove_deletes_row (fun n => n) dbC1 newDataC8 imgC8 (by decide) (by decide)

/-- C3: every route of the sub-application except `/change-user-role` and
`/token` carries the guard `minimum_role(UserRole.MODERATOR)`, and the
role check is hierarchical: a user ranking at least MODERATOR passes the
guard and the handler body runs, while a user ranking strictly below is
rejected before the body runs. -/
theorem C3_hierarchical_role_checks :
    (∀ e ∈ endpoints, e.path ≠ "/change-user-role" → e.path ≠ "/token" →
      e.guard = .minimumRole .moderator) ∧
    (∀ (u : User) (α : Type) (body : Unit → α),
      (roleRank .moderator ≤ roleRank u.role →
        runGuarded (.minimumRole .moderator) u body = some (body ())) ∧
      (roleRank u.role < roleRank .moderator →
        runGuarded (.minimumRole .moderator) u body = none)) := by
  refine ⟨by decide, ?_⟩
  intro u α body
  constructor
  · intro hge
    rw [runGuarded, if_pos]
    show minimum_role .moderator u = true
    rw [minimum_role]
    exact decide_eq_true hge
  · intro hlt
    rw [runGuarded, if_neg]
    show ¬ minimum_role .moderator u = true
    rw [minimum_role]
    simp only [decide_eq_true_eq]
    omega

theorem C3_hierarchical_role_checks_witness :
    runGuarded (.minimumRole .moderator) ⟨1, "mod", .moderator⟩ (fun _ => 7) =
      some 7 ∧
    runGuarded (.minimumRole .moderator) ⟨2, "usr", .user⟩ (fun _ => 7) =
      none :=
  ⟨(C3_hierarchical_role_checks.2 ⟨1, "mod", .moderator⟩ Nat (fun _ => 7)).1
      (by decide),
    (C3_hierarchical_role_checks.2 ⟨2, "usr", .user⟩ Nat (fun _ => 7)).2
      (by decide)⟩

/-- C4: `PUT /change-user-role` is guarded by `require_role(UserRole.ADMIN)`,
which admits exactly the users holding the ADMIN role; and a call naming an
existing user rewrites exactly that user's `role` field to `new_role` and
commits — the updated row keeps its `id` and `username`, every row with a
different id is untouched, and no row appears or disappears. -/
theorem C4_admin_changes_user_role (users : List User) (username : String)
    (new_role : UserRole) (u0 : User)
    (hfound : get_user_from_username username users = some u0) :
    (∀ e ∈ endpoints, e.path = "/change-user-role" →
      e.guard = .requireRole .admin) ∧
    (∀ u : User, guardAllows (.requireRole .admin) u = true ↔ u.role = .admin) ∧
    (change_user_role users username new_role).response = .ok () ∧
    (change_user_role users username new_role).committed = true ∧
    ({ u0 with role := new_role } : User).role = new_role ∧
    ({ u0 with role := new_role } : User).id = u0.id ∧
    ({ u0 with role := new_role } : User).username = u0.username ∧
    ({ u0 with role := new_role } : User) ∈
      (change_user_role users username new_role).users ∧
    (∀ u ∈ users, u.id ≠ u0.id →
      u ∈ (change_user_role users username new_role).users) ∧
    (∀ u ∈ (change_user_role users username new_role).users,
      u = { u0 with role := new_role } ∨ (u ∈ users ∧ u.id ≠ u0.id)) ∧
    (change_user_role users username new_role).users.length = users.length := by
  have hmem0 : u0 ∈ users := List.mem_of_find?_eq_some hfound
  rw [change_user_role, hfound]
  refine ⟨by decide, ?_, rfl, rfl, rfl, rfl, rfl, ?_, ?_, ?_, by simp⟩
  · intro u
    rw [guardAllows, require_role]
    simp
  · exact List.mem_map.2 ⟨u0, hmem0, by simp⟩
  · intro u hmem hne
    refine List.mem_map.2 ⟨u, hmem, ?_⟩
    simp [hne]
  · intro u hmem
    obtain ⟨v, hv, hveq⟩ := List.mem_map.1 hmem
    by_cases hid : v.id = u0.id
    · left
      rw [← hveq]
      simp [hid]
    · right
      rw [← hveq]
      simp [hid]
      exact hv

def usersC4 : List User :=
  [⟨1, "alice", .admin⟩, ⟨2, "bob", .user⟩]

theorem C4_admin_changes_user_role_witness :
    (∀ e ∈ endpoints, e.path = "/change-user-role" →
      e.guard = .requireRole .admin) ∧
    (∀ u : User, guardAllows (.requireRole .admin) u = true ↔ u.role = .admin) ∧
    (change_user_role usersC4 "bob" .moderator).response = .ok () ∧
    (change_user_role usersC4 "bob" .moderator).committed = true ∧
    ({ (⟨2, "bob", .user⟩ : User) with role := .moderator } : User).role =
      .moderator ∧
    ({ (⟨2, "bob", .user⟩ : User) with role := .moderator } : User).id =
      (⟨2, "bob", .user⟩ : User).id ∧
    ({ (⟨2, "bob", .user⟩ : User) with role := .moderator } : User).username =
      (⟨2, "bob", .user⟩ : User).username ∧
    ({ (⟨2, "bob", .user⟩ : User) with role := .moderator } : User) ∈
      (change_user_role usersC4 "bob" .moderator).users ∧
    (∀ u ∈ usersC4, u.id ≠ (⟨2, "bob", .user⟩ : User).id →
      u ∈ (change_user_role usersC4 "bob" .moderator).users) ∧
    (∀ u ∈ (change_user_role usersC4 "bob" .moderator).users,
      u = { (⟨2, "bob", .user⟩ : User) with role := .moderator } ∨
        (u ∈ usersC4 ∧ u.id ≠ (⟨2, "bob", .user⟩ : User).id)) ∧
    (change_user_role usersC4 "bob" .moderator).users.length =
      usersC4.length :=
  C4_admin_changes_user_role usersC4 "bob" .moderator ⟨2, "bob", .user⟩
    (by decide)

/-- C6: both category-creation endpoints are guarded by
`minimum_role(UserRole.MODERATOR)` — any user ranking at least MODERATOR
passes — and each handler inserts exactly the given category row and
commits: the new row's multiplicity grows by one, every other row keeps its
multiplicity, so no existing row is modified. -/
theorem C6_create_category_inserts_row :
    (∀ e ∈ endpoints,
      e.path = "/categories/create" ∨ e.path = "/categories/super/create" →
      e.guard = .minimumRole .moderator) ∧
    (∀ u : User, roleRank .moderator ≤ roleRank u.role →
      guardAllows (.minimumRole .moderator) u = true) ∧
    (∀ (cats : List LabelCategory) (c : LabelCategory),
      (create_label_category cats c).response = .ok () ∧
      (create_label_category cats c).committed = true ∧
      (create_label_category cats c).cats.count c = cats.count c + 1 ∧
      ∀ c', c' ≠ c →
        (create_label_category cats c).cats.count c' = cats.count c') ∧
    (∀ (cats : List LabelSuperCategory) (c : LabelSuperCategory),
      (create_label_super_category cats c).response = .ok () ∧
      (create_label_super_category cats c).committed = true ∧
      (create_label_super_category cats c).cats.count c = cats.count c + 1 ∧
      ∀ c', c' ≠ c →
        (create_label_super_category cats c).cats.count c' = cats.count c') := by
  refine ⟨by decide, ?_, ?_, ?_⟩
  · intro u hge
    rw [guardAllows, minimum_role]
    exact decide_eq_true hge
  · intro cats c
    refine ⟨rfl, rfl, ?_, ?_⟩
    · rw [create_label_category]
      simp [List.count_append]
    · intro c' hne
      rw [create_label_category]
      simp [List.count_append, List.count_singleton]
      intro hcontra
      exact absurd hcontra.symm hne
  · intro cats c
    refine ⟨rfl, rfl, ?_, ?_⟩
    · rw [create_label_super_category]
      simp [List.count_append]
    · intro c' hne
      rw [create_label_super_category]
      simp [List.count_append, List.count_singleton]
      intro hcontra
      exact absurd hcontra.symm hne

theorem C6_create_category_inserts_row_witness :
    guardAllows (.minimumRole .moderator) ⟨1, "adm", .admin⟩ = true ∧
    (create_label_category [⟨1, "note", 0⟩] ⟨2, "robot", 0⟩).cats.count
      ⟨2, "robot", 0⟩ = ([⟨1, "note", 0⟩] : List LabelCategory).count
        ⟨2, "robot", 0⟩ + 1 ∧
    (create_label_category [⟨1, "note", 0⟩] ⟨2, "robot", 0⟩).cats.count
      ⟨1, "note", 0⟩ = ([⟨1, "note", 0⟩] : List LabelCategory).count
        ⟨1, "note", 0⟩ :=
  ⟨C6_create_category_inserts_row.2.1 ⟨1, "adm", .admin⟩ (by decide),
    (C6_create_category_inserts_row.2.2.1 [⟨1, "note", 0⟩] ⟨2, "robot", 0⟩).2.2.1,
    (C6_create_category_inserts_row.2.2.1 [⟨1, "note", 0⟩] ⟨2, "robot", 0⟩).2.2.2
      ⟨1, "note", 0⟩ (by decide)⟩

/-- C5 counterexample: `PUT /categories/create` is a route of the
sub-application whose decorator attaches no `RateLimiter` dependency, so
rate limiting is not applied to every endpoint of the moderation API. -/
theorem C5_counterexample :
    (Endpoint.mk "PUT" "/categories/create" (.minimumRole .moderator) none) ∈
      endpoints ∧
    (Endpoint.mk "PUT" "/categories/create" (.minimumRole .moderator)
      none).rateLimit = none ∧
    ¬ ∀ e ∈ endpoints, e.rateLimit ≠ none := by
  refine ⟨by decide, rfl, ?_⟩
  intro hall
  exact hall ⟨"PUT", "/categories/create", .minimumRole .moderator, none⟩
    (by decide) rfl

lemma runLimiter_insideWindow_bound (limit window w0 : Nat) (ts : List Nat) :
    ∀ c : Nat, c ≤ limit → (∀ t ∈ ts, t < w0 + window) →
      countAllowed (runLimiter limit window ⟨w0, c⟩ ts) + c ≤ limit := by
  induction ts with
  | nil =>
    intro c hc _
    simpa [runLimiter, countAllowed] using hc
  | cons t ts ih =>
    intro c hc hts
    have ht : ¬ (w0 + window ≤ t) := by
      have := hts t (List.mem_cons_self t ts)
      omega
    have hts' : ∀ t' ∈ ts, t' < w0 + window :=
      fun t' hmem => hts t' (List.mem_cons_of_mem t hmem)
    by_cases hcl : c < limit
    · have hstep : rateLimiterStep limit window ⟨w0, c⟩ t = (⟨w0, c + 1⟩, true) := by
        rw [rateLimiterStep, if_neg ht, if_pos hcl]
      rw [runLimiter, hstep]
      have := ih (c + 1) hcl hts'
      simp [countAllowed, List.count_cons] at this ⊢
      omega
    · have hstep : rateLimiterStep limit window ⟨w0, c⟩ t = (⟨w0, c⟩, false) := by
        rw [rateLimiterStep, if_neg ht, if_neg hcl]
      rw [runLimiter, hstep]
      have := ih c hc hts'
      simp [countAllowed, List.count_cons] at this ⊢
      omega

/-- C5 amended: every endpoint except the two category-creation routes
(`/categories/create`, `/categories/super/create` carry no limiter) is
guarded by a `RateLimiter` window counter over a 5-second window — 10
requests for `/token`, 5 for the others — and a window counter admits at
most its configured number of requests per time window: of any requests
falling inside one window, at most `requests_limit` are served. -/
theorem C5_amended_rate_limits :
    (∀ e ∈ endpoints, e.path ≠ "/categories/create" →
      e.path ≠ "/categories/super/create" →
      e.rateLimit = some ⟨(if e.path = "/token" then 10 else 5), 5⟩) ∧
    (∀ (limit window w0 : Nat) (ts : List Nat),
      (∀ t ∈ ts, t < w0 + window) →
      countAllowed (runLimiter limit window ⟨w0, 0⟩ ts) ≤ limit) := by
  refine ⟨by decide, ?_⟩
  intro limit window w0 ts hts
  have := runLimiter_insideWindow_bound limit window w0 ts 0 (Nat.zero_le limit) hts
  omega

theorem C5_amended_rate_limits_witness :
    countAllowed (runLimiter 5 5 ⟨0, 0⟩ [0, 1, 1, 2, 3, 4, 4, 4]) ≤ 5 :=
  C5_amended_rate_limits.2 5 5 0 [0, 1, 1, 2, 3, 4, 4, 4] (by decide)

end InternalV1
